import Mathlib

/-!
Verification development for the olleth-chess-gui repository.

The repository holds two near-duplicate ggez front-ends,
`src/windows-chess-gui/src/main.rs` and `src/chess-gui-linux/src/main.rs`.
This file gives a shallow embedding of their session logic: the `AppState`
struct, the commit-a-move path of `draw`, the destination/highlight
computation, the menu click handlers and the replay key handlers.

The external chess crate (the Rules Engine of the spec) is embedded as
executable Lean functions over an explicit board value: move generators
(`get_pawn_moves`, `get_rook_moves`, ...), occupancy queries and the
castling-square queries follow the published behaviour of the crate the
source uses.  Engine calls whose outcome depends on hidden engine state
(`Game::make_move`, `Game::current_position`, `Board::status`) are modelled
by passing the engine response to the commit step as an explicit
`Option (Board, BoardStatus)` argument: `none` is a rejected move, and
`some (b, st)` is an applied move yielding board `b` with status `st`.

Fields of the Rust structs that carry only presentation or engine-internal
state (`sprites`, `game`, `pos_x`, `pos_y`) are omitted from the embedded
`AppState`; every field the claims mention is kept with its source name.
-/

namespace ChessGui

/-- Side of a piece, the chess crate type `Color`. -/
inductive Color where
  | white
  | black
deriving DecidableEq, Repr

/-- The `!` operator on `Color` in the crate: the other side. -/
def Color.not : Color → Color
  | .white => .black
  | .black => .white

/-- Piece kinds, the chess crate type `Piece`. -/
inductive Piece where
  | pawn
  | knight
  | bishop
  | rook
  | queen
  | king
deriving DecidableEq, Repr

/-- Board status, the chess crate type `BoardStatus`. -/
inductive BoardStatus where
  | ongoing
  | stalemate
  | checkmate
deriving DecidableEq, Repr

/-- A board square: rank and file, each 0 to 7 (crate type `Square`). -/
structure Square where
  rank : Fin 8
  file : Fin 8
deriving DecidableEq

instance : Fintype Square :=
  Fintype.ofEquiv (Fin 8 × Fin 8)
    { toFun := fun p => ⟨p.1, p.2⟩
      invFun := fun s => (s.rank, s.file)
      left_inv := fun _ => rfl
      right_inv := fun _ => rfl }

/-- A set of squares, the crate type `BitBoard`, as its membership function. -/
def BitBoard : Type := Square → Bool

/-- The `&` operator on bitboards. -/
def bbAnd (a b : BitBoard) : BitBoard := fun s => a s && b s

/-- The `|` operator on bitboards. -/
def bbOr (a b : BitBoard) : BitBoard := fun s => a s || b s

/-- The `!` operator on bitboards. -/
def bbNot (a : BitBoard) : BitBoard := fun s => !(a s)

/-- The empty bitboard, `BitBoard(0)` in the source. -/
def bbEmpty : BitBoard := fun _ => false

/-- The singleton bitboard `BitBoard::set(rank, file)` of the crate. -/
def bbSet (r f : Fin 8) : BitBoard := fun s => decide (s = ⟨r, f⟩)

/-- Whether a bitboard holds at least one square (the `for x in bb` loop body
of the source runs at least once exactly when this is true). -/
def bbNonempty (a : BitBoard) : Bool := decide (∃ s, a s = true)

/-- Move a square by a rank and file offset, `none` when this leaves the
board.  This is the bounds-checked step the crate square helpers use. -/
def shift (sq : Square) (dr df : Int) : Option Square :=
  let r : Int := (sq.rank.val : Int) + dr
  let f : Int := (sq.file.val : Int) + df
  if h : 0 ≤ r ∧ r < 8 ∧ 0 ≤ f ∧ f < 8 then
    some ⟨⟨r.toNat, by omega⟩, ⟨f.toNat, by omega⟩⟩
  else none

/-- The crate helper `Square::right`: one file towards the h file. -/
def Square.right (sq : Square) : Option Square := shift sq 0 1

/-- The crate helper `Square::left`: one file towards the a file. -/
def Square.left (sq : Square) : Option Square := shift sq 0 (-1)

/-- The unchecked one-rank-up helper `uup` the source calls on the
en-passant square; the source only applies it below the top rank, the
modulo-8 wrap covers the remaining (never reached) case. -/
def Square.uup (sq : Square) : Square := ⟨sq.rank + 1, sq.file⟩

/-- Castling rights of one side, the crate type `CastleRights` viewed as the
pair of its two flags. -/
structure CastleRights where
  kingside : Bool
  queenside : Bool
deriving DecidableEq, Repr

/-- The board value of the crate type `Board`: piece placement plus the
castling rights and en-passant data the source queries. -/
structure Board where
  placement : Square → Option (Color × Piece)
  whiteRights : CastleRights
  blackRights : CastleRights
  en_passant : Option Square

/-- The crate query `Board::castle_rights(color)`. -/
def Board.castle_rights (b : Board) : Color → CastleRights
  | .white => b.whiteRights
  | .black => b.blackRights

/-- The crate query `Board::combined()`: all occupied squares. -/
def Board.combined (b : Board) : BitBoard := fun s => (b.placement s).isSome

/-- The crate query `Board::color_combined(color)`: squares occupied by one
side. -/
def Board.color_combined (b : Board) (c : Color) : BitBoard := fun s =>
  match b.placement s with
  | some (c', _) => decide (c' = c)
  | none => false

/-- The crate query `Board::piece_on(square)`. -/
def Board.piece_on (b : Board) (s : Square) : Option Piece :=
  (b.placement s).map Prod.snd

/-- The crate query `Board::color_on(square)`. -/
def Board.color_on (b : Board) (s : Square) : Option Color :=
  (b.placement s).map Prod.fst

/-- Piece of the standard back rank at a given file. -/
def backRankPiece (f : Fin 8) : Piece :=
  match f.val with
  | 0 => .rook
  | 1 => .knight
  | 2 => .bishop
  | 3 => .queen
  | 4 => .king
  | 5 => .bishop
  | 6 => .knight
  | _ => .rook

/-- The back rank of a side (rank index 0 for White, 7 for Black). -/
def backRank : Color → Fin 8
  | .white => 0
  | .black => 7

/-- The crate value `Board::default()`: the standard chess starting
position, all castling rights held, no en-passant square. -/
def Board.default : Board where
  placement := fun s =>
    match s.rank.val with
    | 0 => some (.white, backRankPiece s.file)
    | 1 => some (.white, .pawn)
    | 6 => some (.black, .pawn)
    | 7 => some (.black, backRankPiece s.file)
    | _ => none
  whiteRights := ⟨true, true⟩
  blackRights := ⟨true, true⟩
  en_passant := none

/-- The eight knight move offsets. -/
def knightOffsets : List (Int × Int) :=
  [(1, 2), (2, 1), (2, -1), (1, -2), (-1, -2), (-2, -1), (-2, 1), (-1, 2)]

/-- The crate generator `get_knight_moves(square)`. -/
def get_knight_moves (sq : Square) : BitBoard := fun t =>
  decide (t ∈ knightOffsets.filterMap (fun d => shift sq d.1 d.2))

/-- The eight king move offsets. -/
def kingOffsets : List (Int × Int) :=
  [(1, 0), (1, 1), (0, 1), (-1, 1), (-1, 0), (-1, -1), (0, -1), (1, -1)]

/-- The crate generator `get_king_moves(square)`. -/
def get_king_moves (sq : Square) : BitBoard := fun t =>
  decide (t ∈ kingOffsets.filterMap (fun d => shift sq d.1 d.2))

/-- Walk a ray from a square: collect empty squares in one direction and
include the first occupied square, as sliding-piece generators do. -/
def rayGo : Nat → Square → Int × Int → BitBoard → List Square
  | 0, _, _, _ => []
  | n + 1, cur, d, occ =>
    match shift cur d.1 d.2 with
    | none => []
    | some t => if occ t then [t] else t :: rayGo n t d occ

/-- The crate generator `get_rook_moves(square, blockers)`. -/
def get_rook_moves (sq : Square) (occ : BitBoard) : BitBoard := fun t =>
  decide (t ∈ rayGo 7 sq (1, 0) occ ++ rayGo 7 sq (-1, 0) occ
            ++ rayGo 7 sq (0, 1) occ ++ rayGo 7 sq (0, -1) occ)

/-- The crate generator `get_bishop_moves(square, blockers)`. -/
def get_bishop_moves (sq : Square) (occ : BitBoard) : BitBoard := fun t =>
  decide (t ∈ rayGo 7 sq (1, 1) occ ++ rayGo 7 sq (1, -1) occ
            ++ rayGo 7 sq (-1, 1) occ ++ rayGo 7 sq (-1, -1) occ)

/-- Forward rank direction of a pawn of the given side. -/
def pawnDir : Color → Int
  | .white => 1
  | .black => -1

/-- Start rank of a pawn of the given side. -/
def pawnStartRank : Color → Fin 8
  | .white => 1
  | .black => 6

/-- The crate generator `get_pawn_attacks(square, color, blockers)`: the two
diagonal squares, kept only where a blocker stands. -/
def get_pawn_attacks (sq : Square) (c : Color) (blockers : BitBoard) : BitBoard := fun t =>
  decide (some t = shift sq (pawnDir c) (-1) ∨ some t = shift sq (pawnDir c) 1) && blockers t

/-- The push squares of a pawn: one ahead, plus two ahead from the start
rank (the crate pawn move table). -/
def pawnPushes (sq : Square) (c : Color) : BitBoard := fun t =>
  decide (some t = shift sq (pawnDir c) 0) ||
    (decide (sq.rank = pawnStartRank c) && decide (some t = shift sq (2 * pawnDir c) 0))

/-- The crate generator `get_pawn_quiets(square, color, blockers)`: empty
when the square ahead is blocked, otherwise the unblocked push squares. -/
def get_pawn_quiets (sq : Square) (c : Color) (blockers : BitBoard) : BitBoard :=
  match shift sq (pawnDir c) 0 with
  | none => bbEmpty
  | some ahead => if blockers ahead then bbEmpty else bbAnd (pawnPushes sq c) (bbNot blockers)

/-- The crate generator `get_pawn_moves(square, color, blockers)`: the xor
of attacks and quiets (they are disjoint). -/
def get_pawn_moves (sq : Square) (c : Color) (blockers : BitBoard) : BitBoard := fun t =>
  xor (get_pawn_attacks sq c blockers t) (get_pawn_quiets sq c blockers t)

/-- The crate query `CastleRights::kingside_squares(color)`: the squares
between king and rook on the kingside (files f and g of the back rank).
The crate method takes the rights value as receiver but does not consult
it — the rights are only checked by the separate `has_kingside` query,
which the source never calls. -/
def kingside_squares (_cr : CastleRights) (c : Color) : BitBoard := fun t =>
  decide (t = ⟨backRank c, 5⟩) || decide (t = ⟨backRank c, 6⟩)

/-- The crate query `CastleRights::queenside_squares(color)`: the squares
between king and rook on the queenside (files b, c and d of the back
rank), likewise independent of the rights value it receives. -/
def queenside_squares (_cr : CastleRights) (c : Color) : BitBoard := fun t =>
  decide (t = ⟨backRank c, 1⟩) || decide (t = ⟨backRank c, 2⟩)
    || decide (t = ⟨backRank c, 3⟩)

/-- The windows front-end kingside highlight set, main.rs lines 408 and
416-419: the empty kingside castling squares, further intersected with the
f-file square whenever that square is occupied. -/
def kingsideMoves (b : Board) (side : Color) : BitBoard :=
  let k0 := bbAnd (kingside_squares (b.castle_rights side) side) (bbNot b.combined)
  if b.piece_on ⟨backRank side, 5⟩ ≠ none then bbAnd k0 (bbSet (backRank side) 5) else k0

/-- The windows front-end queenside highlight set, main.rs lines 409 and
411-414: the empty queenside castling squares intersected with the b-file
square of the back rank. -/
def queensideMoves (b : Board) (side : Color) : BitBoard :=
  bbAnd (bbAnd (queenside_squares (b.castle_rights side) side) (bbNot b.combined))
    (bbSet (backRank side) 1)

/-- The destination set the windows front-end computes for the grabbed
square, main.rs lines 421-430: per piece kind, the crate generator filtered
by the squares of the side to move, the king unioned with the castling
extras. -/
def destinations (b : Board) (side : Color) (sq : Square) : BitBoard :=
  match b.placement sq with
  | some (c, .pawn) => bbAnd (get_pawn_moves sq c b.combined) (bbNot (b.color_combined side))
  | some (_, .rook) => bbAnd (get_rook_moves sq b.combined) (bbNot (b.color_combined side))
  | some (_, .knight) => bbAnd (get_knight_moves sq) (bbNot (b.color_combined side))
  | some (_, .bishop) => bbAnd (get_bishop_moves sq b.combined) (bbNot (b.color_combined side))
  | some (_, .queen) =>
      bbAnd (bbOr (get_rook_moves sq b.combined) (get_bishop_moves sq b.combined))
        (bbNot (b.color_combined side))
  | some (_, .king) =>
      bbOr (bbOr (bbAnd (get_king_moves sq) (bbNot (b.color_combined side)))
        (kingsideMoves b side)) (queensideMoves b side)
  | none => bbEmpty

/-- The destination set of the linux front-end, main.rs lines 244-253: the
same per-kind filtering, with no castling extras for the king. -/
def linuxDestinations (b : Board) (side : Color) (sq : Square) : BitBoard :=
  match b.placement sq with
  | some (c, .pawn) => bbAnd (get_pawn_moves sq c b.combined) (bbNot (b.color_combined side))
  | some (_, .rook) => bbAnd (get_rook_moves sq b.combined) (bbNot (b.color_combined side))
  | some (_, .knight) => bbAnd (get_knight_moves sq) (bbNot (b.color_combined side))
  | some (_, .bishop) => bbAnd (get_bishop_moves sq b.combined) (bbNot (b.color_combined side))
  | some (_, .queen) =>
      bbAnd (bbOr (get_rook_moves sq b.combined) (get_bishop_moves sq b.combined))
        (bbNot (b.color_combined side))
  | some (_, .king) => bbAnd (get_king_moves sq) (bbNot (b.color_combined side))
  | none => bbEmpty

/-- The highlighted squares of the windows front-end for a grabbed square,
main.rs lines 432-533: every destination square, plus the square above the
en-passant square whenever the board reports one, the grabbed square is
horizontally adjacent to it, and the destination loop runs at least once. -/
def highlights (b : Board) (side : Color) (sq : Square) : BitBoard := fun t =>
  match b.en_passant with
  | none => destinations b side sq t
  | some e =>
      if bbNonempty (destinations b side sq)
          && (decide (Square.right sq = some e) || decide (Square.left sq = some e))
      then destinations b side sq t || decide (t = Square.uup e)
      else destinations b side sq t

/-- The windows front-end `AppState` (main.rs lines 38-64), restricted to
its session fields: `sprites`, `game`, `pos_x` and `pos_y` are presentation
or engine-internal state and carry no session logic. -/
structure AppState where
  board : Board
  status : BoardStatus
  side_to_move : Color
  piece : Option Color × Option Piece
  saved_replay : List (List Board)
  replay_boards : List Board
  replay_turn : Nat

/-- The state built by the windows `AppState::new` (main.rs lines 69-86):
default board, status Checkmate, White to move, no grabbed piece, empty
replay catalog, accumulator seeded with the default board, cursor 999. -/
def windowsInit : AppState where
  board := Board.default
  status := .checkmate
  side_to_move := .white
  piece := (none, none)
  saved_replay := []
  replay_boards := [Board.default]
  replay_turn := 999

/-- The move-commit body of the windows `draw` (main.rs lines 602-653).
The engine response is `none` when `Game::make_move` returned false and
`some (b, st)` when it returned true with new position `b` of status `st`.
On success the new board is pushed onto the replay accumulator, then either
the accumulator is archived into `saved_replay` (status Checkmate) or the
side to move flips; in every case the grabbed piece is cleared. -/
def commitMove (s : AppState) (res : Option (Board × BoardStatus)) : AppState :=
  match res with
  | none => { s with piece := (none, none) }
  | some (b, st) =>
      let s1 := { s with board := b, status := st, replay_boards := s.replay_boards ++ [b] }
      let s2 :=
        if st = .checkmate then { s1 with saved_replay := s1.saved_replay ++ [s1.replay_boards] }
        else { s1 with side_to_move := s1.side_to_move.not }
      { s2 with piece := (none, none) }

/-- One commit attempt including the status gate of main.rs line 587: the
commit body only runs while the status is not Checkmate. -/
def commitStep (s : AppState) (res : Option (Board × BoardStatus)) : AppState :=
  if s.status = .checkmate then s else commitMove s res

/-- Fold a sequence of accepted engine responses through the gated commit
step. -/
def runGame (s : AppState) (ms : List (Board × BoardStatus)) : AppState :=
  ms.foldl (fun s m => commitStep s (some m)) s

/-- The Start Game click handler (main.rs lines 703-712): from status
Checkmate, reset the board, status, side and grabbed piece, clear the
replay accumulator and re-seed it with the default board, reset the replay
cursor; `saved_replay` is untouched. -/
def new_game_click (s : AppState) : AppState :=
  if s.status = .checkmate then
    { s with
      board := Board.default
      status := .ongoing
      side_to_move := .white
      piece := (none, none)
      replay_boards := [Board.default]
      replay_turn := 999 }
  else s

/-- The Replays click handler (main.rs lines 714-716): from status
Checkmate, set the replay cursor to 0. -/
def replay_click (s : AppState) : AppState :=
  if s.status = .checkmate then { s with replay_turn := 0 } else s

/-- The D key handler (main.rs line 731): increment the replay cursor when
it is at least the length of the replay accumulator. -/
def key_d_step (s : AppState) : AppState :=
  if s.replay_boards.length ≤ s.replay_turn then { s with replay_turn := s.replay_turn + 1 }
  else s

/-- The A key handler (main.rs line 732): decrement the replay cursor when
it is at least 1. -/
def key_a_step (s : AppState) : AppState :=
  if 1 ≤ s.replay_turn then { s with replay_turn := s.replay_turn - 1 } else s

/-- The replay branch of the windows `draw` (main.rs lines 657-662), as the
board it leaves on screen: when the cursor is below 777 and the status is
Checkmate the code reads `saved_replay[0]`, a panic (`Except.error`) when
the catalog is empty; with a first record present the board is its entry at
the cursor when in range, otherwise the live board. -/
def replayRender (s : AppState) : Except Unit Board :=
  if s.replay_turn < 777 ∧ s.status = .checkmate then
    match s.saved_replay with
    | [] => .error ()
    | r :: _ =>
        .ok (if h : s.replay_turn < r.length then r.get ⟨s.replay_turn, h⟩ else s.board)
  else .ok s.board

/-- A move request, the crate type `ChessMove`. -/
structure ChessMove where
  source : Square
  dest : Square
  promotion : Option Piece
deriving DecidableEq

/-- The promotion choice of the windows front-end (main.rs lines 594-597):
Queen whenever the destination rank is the first or the eighth rank and the
grabbed piece is a pawn, independent of the side to move. -/
def mkPromotion (pc : Option Color × Option Piece) (toSq : Square) : Option Piece :=
  if (toSq.rank = (0 : Fin 8) ∨ toSq.rank = (7 : Fin 8)) ∧ pc.2 = some .pawn then some .queen
  else none

/-- The move request the windows front-end submits (main.rs line 598). -/
def windowsMoveRequest (s : AppState) (fromSq toSq : Square) : ChessMove :=
  ⟨fromSq, toSq, mkPromotion s.piece toSq⟩

/-- The linux front-end `AppState` (main.rs lines 38-54), restricted to its
session fields as for the windows one; it has no replay fields. -/
structure LinuxAppState where
  board : Board
  status : BoardStatus
  side_to_move : Color
  piece : Option Color × Option Piece

/-- The state built by the linux `AppState::new` (main.rs lines 58-72):
default board, status Ongoing, White to move, no grabbed piece. -/
def linuxInit : LinuxAppState where
  board := Board.default
  status := .ongoing
  side_to_move := .white
  piece := (none, none)

/-- The move-commit body of the linux `draw` (main.rs lines 334-379): as
the windows one but with no replay recording. -/
def linuxCommitMove (s : LinuxAppState) (res : Option (Board × BoardStatus)) : LinuxAppState :=
  match res with
  | none => { s with piece := (none, none) }
  | some (b, st) =>
      let s1 := { s with board := b, status := st }
      let s2 :=
        if st = .checkmate then s1 else { s1 with side_to_move := s1.side_to_move.not }
      { s2 with piece := (none, none) }

/-- The move request the linux front-end submits (main.rs line 332): the
promotion field is always `None`. -/
def linuxMoveRequest (fromSq toSq : Square) : ChessMove := ⟨fromSq, toSq, none⟩

/-- Modelled from the spec: the farthest rank for the side to move, the
rank a pawn of that side promotes on. -/
def specFarthestRank : Color → Fin 8
  | .white => 7
  | .black => 0

/-- Modelled from the spec: the queenside castling precondition of section
4.2, the right still held and the squares between king and rook (files b, c
and d of the back rank) all empty. -/
def spec_queenside_precondition (b : Board) (side : Color) : Prop :=
  (b.castle_rights side).queenside = true ∧
  b.placement ⟨backRank side, 1⟩ = none ∧
  b.placement ⟨backRank side, 2⟩ = none ∧
  b.placement ⟨backRank side, 3⟩ = none

instance (b : Board) (side : Color) : Decidable (spec_queenside_precondition b side) := by
  unfold spec_queenside_precondition
  infer_instance

/-- The square a1. -/
def sqA1 : Square := ⟨0, 0⟩

/-- The square b1. -/
def sqB1 : Square := ⟨0, 1⟩

/-- The square c1. -/
def sqC1 : Square := ⟨0, 2⟩

/-- The square e1. -/
def sqE1 : Square := ⟨0, 4⟩

/-- The square e7. -/
def sqE7 : Square := ⟨6, 4⟩

/-- The square e8. -/
def sqE8 : Square := ⟨7, 4⟩

/-- The square d5. -/
def sqD5 : Square := ⟨4, 3⟩

/-- The square e5. -/
def sqE5 : Square := ⟨4, 4⟩

/-- The square d6. -/
def sqD6 : Square := ⟨5, 3⟩

/-- A board with the white king on e1, a white bishop on c1, both white
castling rights held: a position where queenside castling is blocked by the
bishop while the b1 square is empty. -/
def c5Board : Board where
  placement := fun s =>
    if s = sqE1 then some (.white, .king)
    else if s = sqC1 then some (.white, .bishop)
    else none
  whiteRights := ⟨true, true⟩
  blackRights := ⟨false, false⟩
  en_passant := none

/-- A board with only the white king on e1 and every castling right lost:
a position where no castling is possible at all, yet the queenside squares
are all empty. -/
def c5BoardNoRights : Board where
  placement := fun s => if s = sqE1 then some (.white, .king) else none
  whiteRights := ⟨false, false⟩
  blackRights := ⟨false, false⟩
  en_passant := none

/-- A board with a white knight on e5 and a black pawn on d5 that just
double-moved, so the board reports d5 as the en-passant square. -/
def c9Board : Board where
  placement := fun s =>
    if s = sqE5 then some (.white, .knight)
    else if s = sqD5 then some (.black, .pawn)
    else none
  whiteRights := ⟨false, false⟩
  blackRights := ⟨false, false⟩
  en_passant := some sqD5

/-- The state after a Start Game click on the fresh windows state followed
by a scripted two-ply game whose second accepted move ends in checkmate. -/
def sBug : AppState :=
  runGame (new_game_click windowsInit) [(Board.default, .ongoing), (Board.default, .checkmate)]

/-- Flipping a colour always changes it. -/
theorem Color.not_ne (c : Color) : c.not ≠ c := by
  cases c <;> decide

/-- C1: for every commit the Rules Engine accepts, the recorded status is
the status of the resulting board, and the side to move flips exactly when
that status is not Checkmate — on Checkmate the side that just moved stays
recorded.  Both front-ends behave identically here. -/
theorem c1_turn_alternation (s : AppState) (t : LinuxAppState) (b : Board) (st : BoardStatus) :
    ((commitMove s (some (b, st))).status = st) ∧
    (st = .checkmate → (commitMove s (some (b, st))).side_to_move = s.side_to_move) ∧
    (st ≠ .checkmate → (commitMove s (some (b, st))).side_to_move ≠ s.side_to_move) ∧
    (st = .checkmate → (linuxCommitMove t (some (b, st))).side_to_move = t.side_to_move) ∧
    (st ≠ .checkmate → (linuxCommitMove t (some (b, st))).side_to_move ≠ t.side_to_move) := by
  by_cases h : st = .checkmate <;>
    simp [commitMove, linuxCommitMove, h, Color.not_ne]

/-- Witness for C1 at a concrete accepted non-checkmate move. -/
theorem c1_turn_alternation_witness :
    (BoardStatus.ongoing ≠ BoardStatus.checkmate) ∧
    (commitMove windowsInit (some (Board.default, .ongoing))).side_to_move
      ≠ windowsInit.side_to_move ∧
    (linuxCommitMove linuxInit (some (Board.default, .ongoing))).side_to_move
      ≠ linuxInit.side_to_move :=
  ⟨by decide,
    (c1_turn_alternation windowsInit linuxInit Board.default .ongoing).2.2.1 (by decide),
    (c1_turn_alternation windowsInit linuxInit Board.default .ongoing).2.2.2.2 (by decide)⟩

/-- C2: a commit the Rules Engine rejects leaves board, status, side to
move and the replay state unchanged and only clears the grabbed piece; the
commit function has no error output.  Both front-ends behave identically. -/
theorem c2_silent_rejection (s : AppState) (t : LinuxAppState) :
    (commitMove s none).board = s.board ∧
    (commitMove s none).status = s.status ∧
    (commitMove s none).side_to_move = s.side_to_move ∧
    (commitMove s none).saved_replay = s.saved_replay ∧
    (commitMove s none).replay_boards = s.replay_boards ∧
    (commitMove s none).replay_turn = s.replay_turn ∧
    (commitMove s none).piece = (none, none) ∧
    (linuxCommitMove t none).board = t.board ∧
    (linuxCommitMove t none).status = t.status ∧
    (linuxCommitMove t none).side_to_move = t.side_to_move ∧
    (linuxCommitMove t none).piece = (none, none) := by
  simp [commitMove, linuxCommitMove]

/-- Counterexample to C3: the windows front-end does not start ongoing —
its constructor sets the status to Checkmate (the terminal menu state). -/
theorem c3_initial_status_counterexample :
    windowsInit.status = BoardStatus.checkmate ∧ windowsInit.status ≠ BoardStatus.ongoing := by
  decide

/-- C3 as amended: both front-ends start with the standard starting
position and White to move, but only the linux front-end starts in the
ongoing state; the windows one starts with status Checkmate so that its
start menu shows. -/
theorem c3_initial_state :
    windowsInit.board = Board.default ∧
    windowsInit.side_to_move = Color.white ∧
    windowsInit.status = BoardStatus.checkmate ∧
    windowsInit.saved_replay = [] ∧
    windowsInit.replay_boards = [Board.default] ∧
    linuxInit.board = Board.default ∧
    linuxInit.side_to_move = Color.white ∧
    linuxInit.status = BoardStatus.ongoing ∧
    Board.default.placement sqE1 = some (Color.white, Piece.king) ∧
    Board.default.placement sqE8 = some (Color.black, Piece.king) :=
  ⟨rfl, rfl, rfl, rfl, rfl, rfl, rfl, rfl, by decide, by decide⟩

/-- C6: the Start Game click from the terminal state resets board, status,
side and the replay accumulator (re-seeded with the initial position) and
leaves the replay catalog untouched, so its length never decreases. -/
theorem c6_new_game_reset (s : AppState) (h : s.status = .checkmate) :
    (new_game_click s).board = Board.default ∧
    (new_game_click s).status = .ongoing ∧
    (new_game_click s).side_to_move = .white ∧
    (new_game_click s).replay_boards = [Board.default] ∧
    (new_game_click s).replay_turn = 999 ∧
    (new_game_click s).saved_replay = s.saved_replay ∧
    s.saved_replay.length ≤ (new_game_click s).saved_replay.length := by
  simp [new_game_click, h]

/-- Witness for C6 at the fresh windows state, whose status is Checkmate. -/
theorem c6_new_game_reset_witness :
    windowsInit.status = BoardStatus.checkmate ∧
    (new_game_click windowsInit).status = BoardStatus.ongoing ∧
    (new_game_click windowsInit).saved_replay = windowsInit.saved_replay :=
  ⟨rfl, (c6_new_game_reset windowsInit rfl).2.1, (c6_new_game_reset windowsInit rfl).2.2.2.2.2.1⟩

/-- Counterexample to C7: the windows front-end attaches a Queen promotion
to a white pawn dragged onto the FIRST rank, which is not the farthest rank
for White, and the linux front-end attaches no promotion even on a pawn
move onto the farthest rank. -/
theorem c7_promotion_counterexample :
    mkPromotion (some Color.white, some Piece.pawn) sqA1 = some Piece.queen ∧
    sqA1.rank ≠ specFarthestRank Color.white ∧
    (linuxMoveRequest sqE7 sqE8).promotion = none ∧
    sqE8.rank = specFarthestRank Color.white := by
  decide

/-- C7 as amended: the windows front-end sets promotion to Queen exactly
when the grabbed piece is a pawn and the destination rank is the farthest
rank of EITHER side (rank 1 or rank 8, independent of the side to move),
and otherwise to None; the linux front-end always submits None. -/
theorem c7_promotion_rule (pc : Option Color × Option Piece) (fromSq toSq : Square)
    (s : AppState) :
    (pc.2 = some Piece.pawn ∧
        (toSq.rank = specFarthestRank .white ∨ toSq.rank = specFarthestRank .black) →
      mkPromotion pc toSq = some .queen) ∧
    (¬(pc.2 = some Piece.pawn ∧
        (toSq.rank = specFarthestRank .white ∨ toSq.rank = specFarthestRank .black)) →
      mkPromotion pc toSq = none) ∧
    (windowsMoveRequest s fromSq toSq).promotion = mkPromotion s.piece toSq ∧
    (linuxMoveRequest fromSq toSq).promotion = none := by
  refine ⟨?_, ?_, rfl, rfl⟩
  · rintro ⟨hp, hr⟩
    have hc : (toSq.rank = (0 : Fin 8) ∨ toSq.rank = (7 : Fin 8)) ∧ pc.2 = some .pawn := by
      refine ⟨?_, hp⟩
      rcases hr with h | h
      · exact Or.inr (by simpa [specFarthestRank] using h)
      · exact Or.inl (by simpa [specFarthestRank] using h)
    simp [mkPromotion, hc]
  · intro hn
    have hc : ¬((toSq.rank = (0 : Fin 8) ∨ toSq.rank = (7 : Fin 8)) ∧ pc.2 = some .pawn) := by
      rintro ⟨hr, hp⟩
      refine hn ⟨hp, ?_⟩
      rcases hr with h | h
      · exact Or.inr (by simp [specFarthestRank, h])
      · exact Or.inl (by simp [specFarthestRank, h])
    simp [mkPromotion, hc]

/-- Witness for C7 at a white pawn promoting on the eighth rank. -/
theorem c7_promotion_rule_witness :
    ((some Piece.pawn : Option Piece) = some Piece.pawn ∧
      (sqE8.rank = specFarthestRank .white ∨ sqE8.rank = specFarthestRank .black)) ∧
    mkPromotion (some Color.white, some Piece.pawn) sqE8 = some Piece.queen :=
  ⟨⟨rfl, Or.inl (by decide)⟩,
    (c7_promotion_rule (some .white, some .pawn) sqE7 sqE8 windowsInit).1
      ⟨rfl, Or.inl (by decide)⟩⟩

/-- A square occupied by one side is occupied. -/
theorem color_combined_combined (b : Board) (c : Color) (t : Square)
    (h : b.color_combined c t = true) : b.combined t = true := by
  unfold Board.color_combined at h
  cases hp : b.placement t with
  | none => rw [hp] at h; cases h
  | some v => simp [Board.combined, hp]

/-- A square of the kingside highlight set is unoccupied. -/
theorem kingsideMoves_not_combined (b : Board) (side : Color) (t : Square)
    (h : kingsideMoves b side t = true) : b.combined t = false := by
  unfold kingsideMoves at h
  split at h <;> simp [bbAnd, bbNot, bbSet] at h <;> tauto

/-- A square of the queenside highlight set is unoccupied. -/
theorem queensideMoves_not_combined (b : Board) (side : Color) (t : Square)
    (h : queensideMoves b side t = true) : b.combined t = false := by
  unfold queensideMoves at h
  simp [bbAnd, bbNot, bbSet] at h
  tauto

/-- An unoccupied square holds no piece. -/
theorem combined_false_placement (b : Board) (t : Square)
    (h : b.combined t = false) : b.placement t = none := by
  unfold Board.combined at h
  cases hp : b.placement t with
  | none => rfl
  | some v => rw [hp] at h; cases h

/-- A bitboard of the shape X intersected with the complement of the own
occupancy never holds an own-occupied square. -/
theorem bbAnd_bbNot_false (x own : BitBoard) (t : Square)
    (h : bbAnd x (bbNot own) t = true) : own t = false := by
  simp [bbAnd, bbNot] at h
  exact h.2

/-- C5 as amended: the destination set of either front-end never contains a
square occupied by the side to move; a queenside castling entry is always
the b-file back-rank square, itself empty — neither the castling rights nor
the c- and d-file squares are checked; a kingside castling entry is the f-
or g-file back-rank square, itself empty, with the f-file square empty —
again with no check of the rights. -/
theorem c5_destination_invariant :
    (∀ (b : Board) (side : Color) (sq t : Square),
        destinations b side sq t = true → b.color_combined side t = false) ∧
    (∀ (b : Board) (side : Color) (sq t : Square),
        linuxDestinations b side sq t = true → b.color_combined side t = false) ∧
    (∀ (b : Board) (side : Color) (t : Square),
        queensideMoves b side t = true →
          b.placement t = none ∧ t = ⟨backRank side, 1⟩) ∧
    (∀ (b : Board) (side : Color) (t : Square),
        kingsideMoves b side t = true →
          b.placement t = none ∧
            b.placement ⟨backRank side, 5⟩ = none ∧
            (t = ⟨backRank side, 5⟩ ∨ t = ⟨backRank side, 6⟩)) := by
  have hown : ∀ (b : Board) (side : Color) (t : Square),
      b.combined t = false → b.color_combined side t = false := by
    intro b side t hc
    cases hoc : b.color_combined side t
    · rfl
    · rw [color_combined_combined b side t hoc] at hc; cases hc
  refine ⟨?_, ?_, ?_, ?_⟩
  · intro b side sq t h
    unfold destinations at h
    cases hp : b.placement sq with
    | none => rw [hp] at h; cases h
    | some cp =>
      obtain ⟨c, p⟩ := cp
      rw [hp] at h
      cases p
      case pawn => exact bbAnd_bbNot_false _ _ _ h
      case rook => exact bbAnd_bbNot_false _ _ _ h
      case knight => exact bbAnd_bbNot_false _ _ _ h
      case bishop => exact bbAnd_bbNot_false _ _ _ h
      case queen => exact bbAnd_bbNot_false _ _ _ h
      case king =>
        simp only [bbOr, Bool.or_eq_true] at h
        rcases h with (h | h) | h
        · exact bbAnd_bbNot_false _ _ _ h
        · exact hown b side t (kingsideMoves_not_combined b side t h)
        · exact hown b side t (queensideMoves_not_combined b side t h)
  · intro b side sq t h
    unfold linuxDestinations at h
    cases hp : b.placement sq with
    | none => rw [hp] at h; cases h
    | some cp =>
      obtain ⟨c, p⟩ := cp
      rw [hp] at h
      cases p
      case pawn => exact bbAnd_bbNot_false _ _ _ h
      case rook => exact bbAnd_bbNot_false _ _ _ h
      case knight => exact bbAnd_bbNot_false _ _ _ h
      case bishop => exact bbAnd_bbNot_false _ _ _ h
      case queen => exact bbAnd_bbNot_false _ _ _ h
      case king => exact bbAnd_bbNot_false _ _ _ h
  · intro b side t h
    have hc := queensideMoves_not_combined b side t h
    unfold queensideMoves at h
    simp [bbAnd, bbNot, bbSet, queenside_squares] at h
    exact ⟨combined_false_placement b t hc, h.2⟩
  · intro b side t h
    have hc := kingsideMoves_not_combined b side t h
    unfold kingsideMoves at h
    split at h
    · simp [bbAnd, bbNot, bbSet, kingside_squares] at h
      obtain ⟨⟨hfg, hnc⟩, ht⟩ := h
      rename_i hf
      rw [ht] at hc
      have : b.placement ⟨backRank side, 5⟩ = none := combined_false_placement b _ hc
      simp [Board.piece_on, this] at hf
    · rename_i hf
      simp only [ne_eq, not_not] at hf
      simp [bbAnd, bbNot, bbSet, kingside_squares] at h
      refine ⟨combined_false_placement b t hc, ?_, ?_⟩
      · cases hpf : b.placement ⟨backRank side, 5⟩ with
        | none => rfl
        | some v => simp [Board.piece_on, hpf] at hf
      · tauto

/-- Witness for C5 applying the invariant at the castling board: the b1
entry is not own-occupied. -/
theorem c5_destination_invariant_witness :
    destinations c5Board Color.white sqE1 sqB1 = true ∧
    c5Board.color_combined Color.white sqB1 = false :=
  ⟨by decide, c5_destination_invariant.1 c5Board .white sqE1 sqB1 (by decide)⟩

/-- Counterexample to C5: with the white bishop still on c1 the queenside
castling precondition of the spec fails, yet the destination set of the
king on e1 contains the b1 castling entry (b1 is not a plain king move);
the same entry also appears on a board whose queenside right has been
lost, so neither half of the precondition is enforced. -/
theorem c5_castling_counterexample :
    destinations c5Board Color.white sqE1 sqB1 = true ∧
    get_king_moves sqE1 sqB1 = false ∧
    (c5Board.castle_rights Color.white).queenside = true ∧
    c5Board.placement sqC1 = some (Color.white, Piece.bishop) ∧
    ¬ spec_queenside_precondition c5Board Color.white ∧
    destinations c5BoardNoRights Color.white sqE1 sqB1 = true ∧
    (c5BoardNoRights.castle_rights Color.white).queenside = false ∧
    ¬ spec_queenside_precondition c5BoardNoRights Color.white := by
  decide

/-- C9 as amended: whenever the board reports an en-passant square, the
highlighted set is the destination set plus the square one rank above the
en-passant square, the latter exactly when the grabbed square is
horizontally adjacent to the en-passant square and the destination set is
nonempty — with no condition at all on the kind of the grabbed piece. -/
theorem c9_en_passant_highlight (b : Board) (side : Color) (sq t e : Square)
    (h : b.en_passant = some e) :
    highlights b side sq t = true ↔
      destinations b side sq t = true ∨
        (bbNonempty (destinations b side sq) = true ∧
          (Square.right sq = some e ∨ Square.left sq = some e) ∧ t = Square.uup e) := by
  have hh : highlights b side sq t =
      (if bbNonempty (destinations b side sq)
          && (decide (Square.right sq = some e) || decide (Square.left sq = some e))
        then destinations b side sq t || decide (t = Square.uup e)
        else destinations b side sq t) := by
    unfold highlights
    rw [h]
  rw [hh]
  cases hne : bbNonempty (destinations b side sq)
  · simp [hne]
  · by_cases hr : Square.right sq = some e
    · simp [hne, hr]
    · by_cases hl : Square.left sq = some e
      · simp [hne, hr, hl]
      · simp [hne, hr, hl]

/-- Witness for C9 at the knight-beside-a-double-moved-pawn board. -/
theorem c9_en_passant_highlight_witness :
    c9Board.en_passant = some sqD5 ∧
    (highlights c9Board Color.white sqE5 sqD6 = true ↔
      destinations c9Board Color.white sqE5 sqD6 = true ∨
        (bbNonempty (destinations c9Board Color.white sqE5) = true ∧
          (Square.right sqE5 = some sqD5 ∨ Square.left sqE5 = some sqD5) ∧
          sqD6 = Square.uup sqD5)) :=
  ⟨rfl, c9_en_passant_highlight c9Board .white sqE5 sqD6 sqD5 rfl⟩

/-- Counterexample to C9: with a white KNIGHT grabbed on e5 beside the
reported en-passant square d5, the square d6 above it is highlighted even
though it is no destination of the knight. -/
theorem c9_nonpawn_counterexample :
    c9Board.placement sqE5 = some (Color.white, Piece.knight) ∧
    c9Board.en_passant = some sqD5 ∧
    highlights c9Board Color.white sqE5 sqD6 = true ∧
    destinations c9Board Color.white sqE5 sqD6 = false := by
  decide

/-- Folding a game whose last accepted move checkmates archives exactly the
accumulator extended by the new boards, ends with status Checkmate, and
never touches the replay cursor. -/
theorem runGame_saved (lastb : Board) :
    ∀ (pre : List (Board × BoardStatus)) (s : AppState),
      s.status ≠ BoardStatus.checkmate → (∀ m ∈ pre, m.2 ≠ BoardStatus.checkmate) →
      (runGame s (pre ++ [(lastb, BoardStatus.checkmate)])).saved_replay
          = s.saved_replay
            ++ [s.replay_boards ++ (pre ++ [(lastb, BoardStatus.checkmate)]).map Prod.fst] ∧
      (runGame s (pre ++ [(lastb, BoardStatus.checkmate)])).status = BoardStatus.checkmate ∧
      (runGame s (pre ++ [(lastb, BoardStatus.checkmate)])).replay_turn = s.replay_turn := by
  intro pre
  induction pre with
  | nil =>
    intro s h1 _
    simp [runGame, commitStep, commitMove, h1]
  | cons a rest ih =>
    intro s h1 h2
    obtain ⟨ab, ast⟩ := a
    have hast : ast ≠ BoardStatus.checkmate := h2 (ab, ast) (List.mem_cons_self _ _)
    have h2' : ∀ m ∈ rest, m.2 ≠ BoardStatus.checkmate :=
      fun m hm => h2 m (List.mem_cons_of_mem _ hm)
    have hrun : runGame s (((ab, ast) :: rest) ++ [(lastb, BoardStatus.checkmate)])
        = runGame (commitStep s (some (ab, ast)))
            (rest ++ [(lastb, BoardStatus.checkmate)]) := rfl
    have hstep : commitStep s (some (ab, ast)) =
        { s with
          board := ab
          status := ast
          replay_boards := s.replay_boards ++ [ab]
          side_to_move := s.side_to_move.not
          piece := (none, none) } := by
      simp [commitStep, commitMove, h1, hast]
    have hih := ih
      { s with
        board := ab
        status := ast
        replay_boards := s.replay_boards ++ [ab]
        side_to_move := s.side_to_move.not
        piece := (none, none) } hast h2'
    rw [hrun, hstep]
    refine ⟨?_, hih.2.1, hih.2.2⟩
    rw [hih.1]
    simp [List.append_assoc]

/-- C8: the replay accumulator is seeded with the initial position and one
snapshot is appended per accepted move, so a game ending in checkmate
archives exactly one new record whose snapshot count is the ply count plus
one. -/
theorem c8_replay_recording (s : AppState) (pre : List (Board × BoardStatus)) (lastb : Board)
    (h1 : s.status ≠ BoardStatus.checkmate) (h2 : ∀ m ∈ pre, m.2 ≠ BoardStatus.checkmate)
    (h3 : s.replay_boards = [Board.default]) :
    (runGame s (pre ++ [(lastb, BoardStatus.checkmate)])).saved_replay
        = s.saved_replay
          ++ [Board.default :: (pre ++ [(lastb, BoardStatus.checkmate)]).map Prod.fst] ∧
    (runGame s (pre ++ [(lastb, BoardStatus.checkmate)])).saved_replay.length
        = s.saved_replay.length + 1 ∧
    (Board.default :: (pre ++ [(lastb, BoardStatus.checkmate)]).map Prod.fst).length
        = (pre ++ [(lastb, BoardStatus.checkmate)]).length + 1 ∧
    (runGame s (pre ++ [(lastb, BoardStatus.checkmate)])).status = BoardStatus.checkmate ∧
    windowsInit.replay_boards = [Board.default] ∧
    (new_game_click windowsInit).replay_boards = [Board.default] := by
  obtain ⟨ha, hs, _⟩ := runGame_saved lastb pre s h1 h2
  rw [h3] at ha
  refine ⟨by simpa using ha, ?_, by simp, hs, rfl, rfl⟩
  rw [ha]
  simp

/-- Witness for C8 at a scripted two-ply game from a fresh Start Game
click: the catalog, empty before, holds exactly one record after. -/
theorem c8_replay_recording_witness :
    ((new_game_click windowsInit).status ≠ BoardStatus.checkmate) ∧
    (runGame (new_game_click windowsInit)
        ([(Board.default, BoardStatus.ongoing)]
          ++ [(Board.default, BoardStatus.checkmate)])).saved_replay.length = 1 := by
  refine ⟨by decide, ?_⟩
  exact (c8_replay_recording (new_game_click windowsInit)
    [(Board.default, BoardStatus.ongoing)] Board.default (by decide) (by decide) rfl).2.1

/-- C10: rendering under an active replay cursor is total exactly when the
catalog is non-empty — with at least one archived record the first entry is
always in bounds, while entering replay from the fresh windows state (whose
catalog is empty and whose status is Checkmate) reaches the out-of-range
index of `saved_replay[0]`. -/
theorem c10_replay_totality :
    (∀ s : AppState, s.saved_replay ≠ [] → ∃ bd, replayRender s = .ok bd) ∧
    replayRender (replay_click windowsInit) = .error () := by
  constructor
  · intro s hne
    unfold replayRender
    split
    · cases hsr : s.saved_replay with
      | nil => exact absurd hsr hne
      | cons r rest => exact ⟨_, rfl⟩
    · exact ⟨s.board, rfl⟩
  · rfl

/-- Witness for C10 at the state after a finished game, whose catalog holds
one record. -/
theorem c10_replay_totality_witness :
    sBug.saved_replay ≠ [] ∧ ∃ bd, replayRender sBug = .ok bd := by
  have hlen : sBug.saved_replay.length = 1 := rfl
  have hne : sBug.saved_replay ≠ [] := by
    intro h
    rw [h] at hlen
    exact absurd hlen (by decide)
  exact ⟨hne, c10_replay_totality.1 sBug hne⟩

/-- Iterating the A key k times from a cursor at least k decrements the
cursor by k and changes nothing else. -/
theorem key_a_iter (k : Nat) : ∀ s : AppState, k ≤ s.replay_turn →
    key_a_step^[k] s = { s with replay_turn := s.replay_turn - k } := by
  induction k with
  | zero => intro s _; rfl
  | succ n ih =>
    intro s h
    rw [Function.iterate_succ_apply]
    have h1 : 1 ≤ s.replay_turn := le_trans (Nat.succ_le_succ (Nat.zero_le n)) h
    have hstep : key_a_step s = { s with replay_turn := s.replay_turn - 1 } := by
      simp [key_a_step, h1]
    rw [hstep, ih _ (show n ≤ s.replay_turn - 1 by omega)]
    rw [Nat.sub_sub, Nat.add_comm]

/-- C4 evaluation at the failing input: after a finished two-ply game the
viewed record has length 3 (cursor range 0 to 2), yet 996 A presses from
the initial cursor 999 land on cursor 3 and a D press then yields cursor 4
— the forward step fires exactly when the cursor is already at or past the
end.  Conversely, entering replay puts the cursor at 0 and a D press there
is a no-op, so the cursor can never advance through a viewed replay. -/
theorem c4_replay_cursor_bug :
    sBug.status = BoardStatus.checkmate ∧
    sBug.replay_turn = 999 ∧
    sBug.saved_replay.map List.length = [3] ∧
    sBug.replay_boards.length = 3 ∧
    (key_a_step^[996] sBug).replay_turn = 3 ∧
    (key_d_step (key_a_step^[996] sBug)).replay_turn = 4 ∧
    key_d_step (replay_click sBug) = replay_click sBug ∧
    (replay_click sBug).replay_turn = 0 := by
  have h999 : sBug.replay_turn = 999 := rfl
  have hiter : key_a_step^[996] sBug = { sBug with replay_turn := 3 } := by
    have hit := key_a_iter 996 sBug (by rw [h999]; omega)
    rw [h999] at hit
    exact hit
  refine ⟨rfl, rfl, rfl, rfl, ?_, ?_, rfl, rfl⟩
  · rw [hiter]
  · rw [hiter]
    rfl

end ChessGui
